import Mathlib

/-
Verification development for the Plasma-Computer-Vision repository.

The Python sources are shallowly embedded as follows.  The OpenCV
capture driver is an external collaborator; its observable behaviour at
each device index (does `VideoCapture(i)` open, does `cap.read()`
succeed, which property values does `cap.get` report) is a parameter
`env : ℕ → ProbeResult` of every function that probes devices.  8-bit
images are lists of BGR pixels with natural-number channels; the
floating-point quantities of the pipeline (property reports, brightness
values, wall-clock instants) are modelled as exact rationals.  Python
generators become functions from an environment to the finite list of
values they yield, together with an `Except` for a raised error and a
Bool recording that the device handle was released.
-/

/-- Observable behaviour of the capture driver at one device index:
whether `cv2.VideoCapture(i)` opens, whether `cap.read()` succeeds, and
the values `cap.get` reports for width, height and fps (`none` models a
falsy/absent report, which Python's `x or 0` coerces to 0). -/
structure ProbeResult where
  opens : Bool
  readOk : Bool
  wProp : Option ℚ
  hProp : Option ℚ
  fpsProp : Option ℚ

/-- Python's `x or 0` applied to an optionally reported property. -/
def orZero (x : Option ℚ) : ℚ := x.getD 0

/-- Python's `int()` truncation toward zero of a float, on rationals. -/
def pyInt (q : ℚ) : ℤ := if 0 ≤ q then ⌊q⌋ else -⌊-q⌋

/-- One iteration of the scan loop of `list_working_cameras`
(capture.py lines 24-33): the first component is the descriptor
appended for index `i` (if any), built exactly as in the source
(`int(cap.get(...) or 0)` for width and height, `cap.get(...) or 0` for
fps); the second component records whether `cap.release()` runs before
the loop moves on — it is on every control path of the body. -/
def scanProbe (env : ℕ → ProbeResult) (i : ℕ) : Option (ℕ × ℤ × ℤ × ℚ) × Bool :=
  let p := env i
  if p.opens then
    if p.readOk then
      (some (i, pyInt (orZero p.wProp), pyInt (orZero p.hProp), orZero p.fpsProp), true)
    else (none, true)
  else (none, true)

/-- Embedding of `list_working_cameras` (capture.py lines 14-34): probe
indices `0 .. max_index - 1` in order and collect the descriptors of the
devices that open and yield a frame. -/
def list_working_cameras (env : ℕ → ProbeResult) (max_index : ℕ) : List (ℕ × ℤ × ℤ × ℚ) :=
  (List.range max_index).filterMap fun i => (scanProbe env i).1

/-- Embedding of `get_camera_properties` (capture.py lines 61-75),
applied to the property reports of the handle's device: width and
height as `int(... or 0)`, and fps as `... or 0` followed by the
substitution `if fps < 1: fps = 30.0`. -/
def get_camera_properties (p : ProbeResult) : ℤ × ℤ × ℚ :=
  let w := pyInt (orZero p.wProp)
  let h := pyInt (orZero p.hProp)
  let fps := orZero p.fpsProp
  (w, h, if fps < 1 then 30 else fps)

/-- Driver environment exhibiting a working camera whose reported frame
rate is 0: device 0 opens, reads a frame, and reports 640x480 at 0 fps. -/
def fpsZeroEnv : ℕ → ProbeResult := fun _ =>
  { opens := true, readOk := true, wProp := some 640, hProp := some 480, fpsProp := some 0 }

/-- Driver environment like `fpsZeroEnv` with a 320x240 device, again
reporting 0 fps. -/
def fpsZeroEnv2 : ℕ → ProbeResult := fun _ =>
  { opens := true, readOk := true, wProp := some 320, hProp := some 240, fpsProp := some 0 }

/-- Outcome of one call to `show_live_view` (capture.py line 139). -/
inductive LVResult
  | quit
  | next
  | select
  | error
deriving DecidableEq

/-- Environment of one iteration of the live-view loop: whether
`read_frame` succeeds, and the key reported by `wait_for_key` (already
masked with `0xFF`; `none` models no key pressed). -/
structure LVStep where
  readOk : Bool
  key : Option ℕ
deriving DecidableEq

/-- Key code `ord('q')`. -/
def qKey : ℕ := 113

/-- Key code `ord('n')`. -/
def nKey : ℕ := 110

/-- Key code `ord('s')`. -/
def sKey : ℕ := 115

/-- The loop of `show_live_view` (capture.py lines 148-183) with the
default key handling: each iteration reads a frame — a failed read
releases the handle and returns `'error'` — then polls the keyboard;
`q`, `n` and `s` release the handle and return `'quit'`, `'next'` and
`'select'`; any other key (or none) continues the loop.  The result
pairs the returned string with a Bool recording that `cap.release()`
ran before returning; `none` means the supplied iterations ran out with
the loop still going. -/
def show_live_view_loop : List LVStep → Option (LVResult × Bool)
  | [] => none
  | s :: rest =>
    if s.readOk then
      match s.key with
      | some k =>
        if k = qKey then some (.quit, true)
        else if k = nKey then some (.next, true)
        else if k = sKey then some (.select, true)
        else show_live_view_loop rest
      | none => show_live_view_loop rest
    else some (.error, true)

/-- Embedding of `show_live_view` (capture.py lines 126-187): an open
failure returns `'error'` at once (no handle was acquired, so none is
left open — the Bool is true); otherwise the loop runs. -/
def show_live_view (opens : Bool) (steps : List LVStep) : Option (LVResult × Bool) :=
  if opens then show_live_view_loop steps else some (.error, true)

/-- Starting cursor of `interactive_camera_selection` (capture.py lines
269-272): `current_idx = 0`, replaced by
`available_indices.index(start_index)` when `start_index` occurs in the
available indices. -/
def initialCursor (avail : List ℕ) (start_index : ℕ) : ℕ :=
  if start_index ∈ avail then avail.indexOf start_index else 0

/-- The selection loop of `interactive_camera_selection` (capture.py
lines 285-303), consuming the result of each successive
`show_live_view` call: the cursor is reset to 0 at the top of each
iteration when it runs past the end, `'next'` increments it, `'select'`
returns the camera index under the cursor, and `'quit'` or `'error'`
breaks out with no selection.  `some r` is the function's return value
`r`; `none` means the supplied results ran out with the loop still
going. -/
def selectionLoop (avail : List ℕ) : ℕ → List LVResult → Option (Option ℕ)
  | _, [] => none
  | c, r :: rs =>
    let c2 := if avail.length ≤ c then 0 else c
    match r with
    | .next => selectionLoop avail (c2 + 1) rs
    | .select => some (some (avail.getD c2 0))
    | .quit => some none
    | .error => some none

/-- Embedding of `interactive_camera_selection` (capture.py lines
238-310): scan output in, `None` straight away when no camera was
found, otherwise the selection loop from the initial cursor. -/
def interactive_camera_selection (cams : List (ℕ × ℤ × ℤ × ℚ)) (start_index : ℕ)
    (results : List LVResult) : Option (Option ℕ) :=
  let avail := cams.map (·.1)
  if avail.isEmpty then some none
  else selectionLoop avail (initialCursor avail start_index) results

/-- Continuation condition for one live-view iteration: the frame read
succeeded and no terminal key (`q`, `n`, `s`) was pressed. -/
def lvContinue (s : LVStep) : Bool :=
  s.readOk && match s.key with
    | none => true
    | some k => !(k = qKey || k = nKey || k = sKey)

/-- A pixel in OpenCV's BGR channel order, 8-bit channels as naturals. -/
structure Pix where
  b : ℕ
  g : ℕ
  r : ℕ
deriving DecidableEq

/-- Model of `cv2.cvtColor(frame, cv2.COLOR_BGR2GRAY)` on one pixel:
OpenCV's fixed-point ITU-R BT.601 luma,
`Y = (4899 R + 9617 G + 1868 B + 8192) >> 14`. -/
def bgr2gray (p : Pix) : ℕ := (4899 * p.r + 9617 * p.g + 1868 * p.b + 8192) / 16384

/-- Model of `np.mean(gray)`: the arithmetic mean of the grayscale
image over all pixels, as an exact rational (a frame is its list of
pixels; the 2-D layout is irrelevant to the mean). -/
def grayMean (frame : List Pix) : ℚ := ((frame.map bgr2gray).sum : ℚ) / frame.length

/-- The per-frame value computed in the loop body of `bright_or_dark`
(image_processing.py lines 33-37): grayscale conversion, mean over all
pixels, normalization by 255. -/
def bright_or_dark_step (frame : List Pix) : ℚ := grayMean frame / 255

/-- Embedding of `bright_or_dark_single_frame` (image_processing.py
lines 44-59): grayscale conversion, mean over all pixels,
normalization by 255. -/
def bright_or_dark_single_frame (frame : List Pix) : ℚ := grayMean frame / 255

/-- Behaviour of the capture device backing one run of the
`bright_or_dark` generator: whether `open_camera` succeeds, and the
frames successfully read before the first failed read. -/
structure CamStream where
  opens : Bool
  frames : List (List Pix)

/-- Embedding of the generator `bright_or_dark` (image_processing.py
lines 10-41): a failed open raises `RuntimeError` on first pull, before
any value is yielded (`Except.error`); otherwise the generator yields
one brightness value per readable frame and ends normally when a read
fails, the `finally` block releasing the handle on that exit (the
Bool). -/
def bright_or_dark (env : CamStream) : Except String (List ℚ × Bool) :=
  if env.opens then Except.ok (env.frames.map bright_or_dark_step, true)
  else Except.error "Could not open camera"

/-- Round half to even of a rational to an integer, the IEEE-754
default rounding used by `struct.pack`. -/
def rne (q : ℚ) : ℤ :=
  let f := ⌊q⌋
  if q - f < 1 / 2 then f
  else if 1 / 2 < q - f then f + 1
  else if f % 2 = 0 then f else f + 1

/-- Fuel-bounded upward search for the floor of the base-2 logarithm:
raise `e` while `2 ^ (e + 1) ≤ v`. -/
def low2 (v : ℚ) : ℕ → ℤ → ℤ
  | 0, e => e
  | f + 1, e => if (2 : ℚ) ^ (e + 1) ≤ v then low2 v f (e + 1) else e

/-- Fuel-bounded downward search: lower `e` until `2 ^ e ≤ v`. -/
def down2 (v : ℚ) : ℕ → ℤ → ℤ
  | 0, e => e
  | f + 1, e => if (2 : ℚ) ^ e ≤ v then e else down2 v f (e - 1)

/-- Floor of the base-2 logarithm of a positive rational, searched over
the binary32 exponent range. -/
def floorLog2 (v : ℚ) : ℤ :=
  if 1 ≤ v then low2 v 128 0 else down2 v 150 0

/-- Model of the bit pattern `struct.pack('>f', v)` produces for the
nonnegative values this pipeline transmits: the IEEE-754 binary32
round-to-nearest-even encoding as a 32-bit word (sign bit 0; values
whose rounded magnitude lies below the normal range take the
subnormal/zero path). -/
def f32word (v : ℚ) : ℕ :=
  if v ≤ 0 then 0
  else
    let e := floorLog2 v
    if e < -126 then (rne (v * (2 : ℚ) ^ (149 : ℤ))).toNat
    else
      let m := rne (v * (2 : ℚ) ^ (23 - e))
      if 2 ^ 24 ≤ m then (e + 128).toNat * 2 ^ 23
      else (e + 127).toNat * 2 ^ 23 + (m.toNat - 2 ^ 23)

/-- Big-endian byte serialization of a 32-bit word: the order in which
`struct.pack('>f', ...)` emits the four bytes. -/
def wordBytes (w : ℕ) : List ℕ :=
  [w / 2 ^ 24 % 256, w / 2 ^ 16 % 256, w / 2 ^ 8 % 256, w % 256]

/-- The 4 bytes written by `s.sendall(struct.pack('>f', v))`
(main.py line 83, TCP_client.py line 37). -/
def f32bytes (v : ℚ) : List ℕ := wordBytes (f32word v)

/-- Decoder of the wire format: 4 big-endian bytes back to the encoded
binary32 value (what the remote controller reads). -/
def f32decode : List ℕ → ℚ
  | [b0, b1, b2, b3] =>
    let w : ℕ := b0 * 2 ^ 24 + b1 * 2 ^ 16 + b2 * 2 ^ 8 + b3
    let ef : ℕ := w / 2 ^ 23 % 256
    let frac : ℕ := w % 2 ^ 23
    let mag : ℚ :=
      if ef = 0 then (frac : ℚ) * (2 : ℚ) ^ (-149 : ℤ)
      else ((2 ^ 23 + frac : ℕ) : ℚ) * (2 : ℚ) ^ ((ef : ℤ) - 150)
    if w / 2 ^ 31 % 2 = 1 then -mag else mag
  | _ => 0

/-- The throttled send loop of `main` (main.py lines 72-85): every
sample pulled from the intensity generator arrives with the wall-clock
time of its pull; when at least `interval` has elapsed since
`last_print_time`, the value is packed as a big-endian float and
written with `sendall` and `last_print_time` becomes the current time;
otherwise the sample is dropped without buffering.  `main` instantiates
the interval with 1.0 second.  The result is the ordered list of
(time, payload) writes. -/
def senderRun (interval : ℚ) : ℚ → List (ℚ × ℚ) → List (ℚ × List ℕ)
  | _, [] => []
  | last, (t, v) :: rest =>
    if interval ≤ t - last then (t, f32bytes v) :: senderRun interval t rest
    else senderRun interval last rest

-- ============================== THEOREMS ==============================

/-- Helper: the descriptor recorded for index `i`, as a single equation. -/
theorem scanProbe_fst (env : ℕ → ProbeResult) (i : ℕ) :
    (scanProbe env i).1 =
      if (env i).opens && (env i).readOk then
        some (i, pyInt (orZero (env i).wProp), pyInt (orZero (env i).hProp),
          orZero (env i).fpsProp)
      else none := by
  rcases ho : (env i).opens with _ | _ <;> rcases hr : (env i).readOk with _ | _ <;>
    simp [scanProbe, ho, hr]

/-- Helper: the indices recorded by the scan are the probed indices that
opened and read successfully, in probe order. -/
theorem list_working_cameras_map_fst (env : ℕ → ProbeResult) (m : ℕ) :
    (list_working_cameras env m).map (·.1) =
      (List.range m).filter fun i => (env i).opens && (env i).readOk := by
  unfold list_working_cameras
  induction List.range m with
  | nil => rfl
  | cons a l ih =>
    simp only [List.filterMap_cons, List.filter_cons, scanProbe_fst env a]
    by_cases h : ((env a).opens && (env a).readOk) = true <;> simp [h, ih]

/-- C1 counterexample: in a driver environment where device 0 opens,
reads a frame, and reports 640x480 at 0 fps, the scan returns a
descriptor whose frame rate is 0, refuting the claim that every
returned descriptor has `frameRate > 0` (the scan applies no positivity
filter and no default substitution). -/
theorem C1_scan_zero_fps_counterexample :
    list_working_cameras fpsZeroEnv 1 = [(0, 640, 480, 0)] ∧
    ¬ ∀ d ∈ list_working_cameras fpsZeroEnv 1, 0 < d.2.2.2 := by
  have h : list_working_cameras fpsZeroEnv 1 = [(0, 640, 480, 0)] := by
    norm_num [list_working_cameras, scanProbe, fpsZeroEnv, orZero, pyInt,
      List.range_succ, List.filterMap_cons]
  refine ⟨h, fun hall => ?_⟩
  have h0 := hall (0, 640, 480, 0) (by rw [h]; exact List.mem_singleton.2 rfl)
  exact absurd h0 (by norm_num)

/-- C1 (amended): for every driver environment and every `max_index`,
the device indices returned by `list_working_cameras` form a
subsequence of `0 .. max_index - 1` in strictly increasing order, and
every returned descriptor carries exactly the device-reported width,
height and frame rate (falsy reports coerced to 0) — the fields need
not be positive. -/
theorem C1_scan_subsequence (env : ℕ → ProbeResult) (m : ℕ) :
    ((list_working_cameras env m).map (·.1)).Sublist (List.range m) ∧
    ((list_working_cameras env m).map (·.1)).Pairwise (· < ·) ∧
    ∀ d ∈ list_working_cameras env m,
      (env d.1).opens = true ∧ (env d.1).readOk = true ∧
      d.2.1 = pyInt (orZero (env d.1).wProp) ∧
      d.2.2.1 = pyInt (orZero (env d.1).hProp) ∧
      d.2.2.2 = orZero (env d.1).fpsProp := by
  refine ⟨?_, ?_, ?_⟩
  · rw [list_working_cameras_map_fst]
    exact List.filter_sublist _
  · rw [list_working_cameras_map_fst]
    exact List.Pairwise.sublist (List.filter_sublist _) (List.pairwise_lt_range m)
  · intro d hd
    unfold list_working_cameras at hd
    obtain ⟨i, _, he⟩ := List.mem_filterMap.1 hd
    rw [scanProbe_fst] at he
    split at he
    next h =>
      rw [Bool.and_eq_true] at h
      obtain ⟨h1, h2⟩ := h
      injection he with he
      subst he
      exact ⟨h1, h2, rfl, rfl, rfl⟩
    next => exact absurd he (by simp)

/-- C1 witness: the amended theorem applied to the concrete environment
`fpsZeroEnv`, discharging the membership hypothesis at the descriptor
the scan actually returns. -/
theorem C1_scan_subsequence_witness :
    ((0 : ℕ), (640 : ℤ), (480 : ℤ), (0 : ℚ)).2.2.2 = orZero (fpsZeroEnv 0).fpsProp :=
  ((C1_scan_subsequence fpsZeroEnv 1).2.2 (0, 640, 480, 0)
    (by norm_num [list_working_cameras, scanProbe, fpsZeroEnv, orZero, pyInt,
      List.range_succ, List.filterMap_cons])).2.2.2.2

/-- C2 counterexample: for a working device that reports 0 fps — not a
positive, sane value — the scan records frame rate 0, not the default
30.0: `list_working_cameras` never applies the substitution (which
lives only in `get_camera_properties`). -/
theorem C2_no_default_fps_counterexample :
    list_working_cameras fpsZeroEnv2 1 = [(0, 320, 240, 0)] ∧ (0 : ℚ) ≠ 30 := by
  constructor
  · norm_num [list_working_cameras, scanProbe, fpsZeroEnv2, orZero, pyInt,
      List.range_succ, List.filterMap_cons]
  · norm_num

/-- C2 (amended): for every probed device that opens and yields a
frame, the scan records its width, height and frame rate exactly as
reported (falsy coerced to 0, with no 30.0 substitution), and releases
the handle on every probe before moving on; the substitution of 30.0
for a frame rate below 1 is performed by `get_camera_properties`, which
enumeration does not call. -/
theorem C2_scan_records_raw (env : ℕ → ProbeResult) (i : ℕ)
    (ho : (env i).opens = true) (hr : (env i).readOk = true) :
    (scanProbe env i).1 = some (i, pyInt (orZero (env i).wProp),
      pyInt (orZero (env i).hProp), orZero (env i).fpsProp) ∧
    (∀ j, (scanProbe env j).2 = true) ∧
    (orZero (env i).fpsProp < 1 → (get_camera_properties (env i)).2.2 = 30) ∧
    (1 ≤ orZero (env i).fpsProp → (get_camera_properties (env i)).2.2 = orZero (env i).fpsProp) := by
  refine ⟨?_, ?_, ?_, ?_⟩
  · rw [scanProbe_fst]
    simp [ho, hr]
  · intro j
    rcases h1 : (env j).opens with _ | _ <;> rcases h2 : (env j).readOk with _ | _ <;>
      simp [scanProbe, h1, h2]
  · intro h
    simp [get_camera_properties, if_pos h]
  · intro h
    simp [get_camera_properties, not_lt.2 h]

/-- C2 witness: the amended theorem applied to the 0-fps environment;
`get_camera_properties` (not the scan) turns the reported 0 into 30. -/
theorem C2_scan_records_raw_witness :
    (get_camera_properties (fpsZeroEnv 0)).2.2 = 30 :=
  (C2_scan_records_raw fpsZeroEnv 0 rfl rfl).2.2.1 (by norm_num [fpsZeroEnv, orZero])

/-- C3: in the selection loop, after any number of `'next'` events from
any in-range starting cursor over a non-empty candidate list, the
candidate returned by a `'select'` is the one at position
`(initialCursor + numAdvances) mod len(candidates)`; in particular
advancing past the last candidate wraps to the first. -/
theorem C3_cursor_mod (avail : List ℕ) (c0 n : ℕ) (rest : List LVResult)
    (h0 : 0 < avail.length) (hc : c0 ≤ avail.length) :
    selectionLoop avail c0 (List.replicate n LVResult.next ++ LVResult.select :: rest) =
      some (some (avail.getD ((c0 + n) % avail.length) 0)) := by
  induction n generalizing c0 with
  | zero =>
    by_cases h : avail.length ≤ c0
    · have hce : c0 = avail.length := le_antisymm hc h
      simp [selectionLoop, h, hce, Nat.mod_self]
    · simp [selectionLoop, h, Nat.mod_eq_of_lt (not_le.mp h)]
  | succ n ih =>
    have hc2 : (if avail.length ≤ c0 then 0 else c0) = c0 % avail.length := by
      by_cases h : avail.length ≤ c0
      · have hce : c0 = avail.length := le_antisymm hc h
        simp [h, hce, Nat.mod_self]
      · simp [h, Nat.mod_eq_of_lt (not_le.mp h)]
    have hstep : selectionLoop avail c0
        (List.replicate (n + 1) LVResult.next ++ LVResult.select :: rest) =
        selectionLoop avail (c0 % avail.length + 1)
          (List.replicate n LVResult.next ++ LVResult.select :: rest) := by
      simp only [List.replicate_succ, List.cons_append, selectionLoop, hc2,
        List.append_eq]
    rw [hstep, ih (c0 % avail.length + 1) (Nat.mod_lt c0 h0)]
    have harith : (c0 % avail.length + 1 + n) % avail.length =
        (c0 + (n + 1)) % avail.length := by
      rw [Nat.add_assoc, Nat.mod_add_mod, Nat.add_comm 1 n]
    rw [harith]

/-- C3 witness: candidates `[1, 3]`, initial cursor 1, one advance:
the selection wraps to position `(1 + 1) mod 2 = 0`, device 1. -/
theorem C3_cursor_mod_witness :
    selectionLoop [1, 3] 1 (List.replicate 1 LVResult.next ++ LVResult.select :: []) =
      some (some 1) := by
  have h := C3_cursor_mod [1, 3] 1 1 [] (by decide) (by decide)
  simpa using h

/-- C4: the selection controller starts at the caller-supplied
`start_index` when it occurs among the candidates and at the first
candidate otherwise; concretely, with working devices `[1, 3]` and
`start_index = 3`, browsing begins at device 3, one `'next'` wraps to
device 1, and a `'select'` returns index 1. -/
theorem C4_start_and_wrap :
    (∀ (avail : List ℕ) (s : ℕ), s ∈ avail → avail.getD (initialCursor avail s) 0 = s) ∧
    (∀ (avail : List ℕ) (s : ℕ), s ∉ avail → initialCursor avail s = 0) ∧
    interactive_camera_selection [(1, 640, 480, 30), (3, 640, 480, 30)] 3
      [LVResult.next, LVResult.select] = some (some 1) := by
  refine ⟨?_, ?_, ?_⟩
  · intro avail s hs
    have hlt : avail.indexOf s < avail.length := List.indexOf_lt_length.2 hs
    rw [initialCursor, if_pos hs, List.getD_eq_getElem _ _ hlt, List.getElem_indexOf]
  · intro avail s hs
    rw [initialCursor, if_neg hs]
  · decide

/-- C4 witness: the start-position part applied at candidates `[1, 3]`
with `start_index = 3`, discharging the membership hypothesis. -/
theorem C4_start_and_wrap_witness : [1, 3].getD (initialCursor [1, 3] 3) 0 = 3 :=
  C4_start_and_wrap.1 [1, 3] 3 (by decide)

/-- C5: while browsing, a frame-read failure in the live view (after
any number of iterations that keep going) releases the handle and
returns `'error'`, and the selection loop answers any `'error'` result
by breaking out and returning no selection — it never continues
browsing past the failure and never selects a device. -/
theorem C5_read_failure_quits (pre : List LVStep) (bad : LVStep) (rest : List LVStep)
    (hpre : ∀ s ∈ pre, lvContinue s = true) (hbad : bad.readOk = false) :
    show_live_view_loop (pre ++ bad :: rest) = some (LVResult.error, true) ∧
    ∀ (avail : List ℕ) (c : ℕ) (rs : List LVResult),
      selectionLoop avail c (LVResult.error :: rs) = some none := by
  constructor
  · induction pre with
    | nil => simp [show_live_view_loop, hbad]
    | cons s pre ih =>
      have hs := hpre s (List.mem_cons_self _ _)
      have hrest : ∀ x ∈ pre, lvContinue x = true := fun x hx =>
        hpre x (List.mem_cons_of_mem _ hx)
      rw [lvContinue, Bool.and_eq_true] at hs
      obtain ⟨hok, hk⟩ := hs
      rcases hkey : s.key with _ | k
      · rw [hkey] at hk
        simpa [show_live_view_loop, hok, hkey] using ih hrest
      · rw [hkey] at hk
        simp only [Bool.not_eq_true', Bool.or_eq_false_iff, decide_eq_false_iff_not] at hk
        obtain ⟨⟨hq, hn⟩, hsk⟩ := hk
        simpa [show_live_view_loop, hok, hkey, hq, hn, hsk] using ih hrest
  · intro avail c rs
    rfl

/-- C5 witness: one successful keyless iteration followed by a failed
read produces `'error'` with the handle released. -/
theorem C5_read_failure_quits_witness :
    show_live_view_loop ([⟨true, none⟩] ++ ⟨false, none⟩ :: []) =
      some (LVResult.error, true) :=
  (C5_read_failure_quits [⟨true, none⟩] ⟨false, none⟩ [] (by decide) rfl).1

/-- Helper: with channels at most 255, the OpenCV luma of a pixel is at
most 255. -/
theorem bgr2gray_le (p : Pix) (hb : p.b ≤ 255) (hg : p.g ≤ 255) (hr : p.r ≤ 255) :
    bgr2gray p ≤ 255 := by
  unfold bgr2gray
  calc (4899 * p.r + 9617 * p.g + 1868 * p.b + 8192) / 16384
      ≤ (16384 * 255 + 8192) / 16384 := Nat.div_le_div_right (by omega)
    _ = 255 := by decide

/-- Helper: the grayscale mean of a non-empty 8-bit frame is at most
255. -/
theorem grayMean_le (frame : List Pix) (hne : frame ≠ [])
    (hb : ∀ p ∈ frame, p.b ≤ 255 ∧ p.g ≤ 255 ∧ p.r ≤ 255) :
    grayMean frame ≤ 255 := by
  have hlen : 0 < frame.length := List.length_pos.2 hne
  have hsum : (frame.map bgr2gray).sum ≤ (frame.map bgr2gray).length • 255 := by
    refine List.sum_le_card_nsmul _ 255 ?_
    intro x hx
    obtain ⟨p, hp, rfl⟩ := List.mem_map.1 hx
    exact bgr2gray_le p (hb p hp).1 (hb p hp).2.1 (hb p hp).2.2
  rw [List.length_map, smul_eq_mul] at hsum
  unfold grayMean
  rw [div_le_iff₀ (by exact_mod_cast hlen)]
  calc ((frame.map bgr2gray).sum : ℚ) ≤ ((frame.length * 255 : ℕ) : ℚ) := by exact_mod_cast hsum
    _ = 255 * (frame.length : ℚ) := by push_cast; ring

/-- Helper: the grayscale mean of a uniform frame is the luma of its
pixel. -/
theorem grayMean_replicate (n : ℕ) (hn : 0 < n) (p : Pix) :
    grayMean (List.replicate n p) = bgr2gray p := by
  have hn' : (n : ℚ) ≠ 0 := Nat.cast_ne_zero.2 hn.ne'
  unfold grayMean
  rw [List.map_replicate, List.sum_replicate, List.length_replicate, smul_eq_mul]
  push_cast
  field_simp

/-- C7: the brightness of a non-empty 8-bit frame is the grayscale mean
over all pixels divided by 255, hence lies in `[0, 1]`; a uniform frame
of pixel value 128 gives exactly `128/255`, an all-black frame gives 0,
and an all-white frame gives 1. -/
theorem C7_brightness_range (frame : List Pix) (hne : frame ≠ [])
    (hb : ∀ p ∈ frame, p.b ≤ 255 ∧ p.g ≤ 255 ∧ p.r ≤ 255) :
    0 ≤ bright_or_dark_single_frame frame ∧
    bright_or_dark_single_frame frame ≤ 1 ∧
    ∀ n : ℕ, 0 < n →
      bright_or_dark_single_frame (List.replicate n ⟨128, 128, 128⟩) = 128 / 255 ∧
      bright_or_dark_single_frame (List.replicate n ⟨0, 0, 0⟩) = 0 ∧
      bright_or_dark_single_frame (List.replicate n ⟨255, 255, 255⟩) = 1 := by
  refine ⟨?_, ?_, ?_⟩
  · unfold bright_or_dark_single_frame grayMean
    positivity
  · unfold bright_or_dark_single_frame
    rw [div_le_one (by norm_num)]
    exact grayMean_le frame hne hb
  · intro n hn
    have h128 : bgr2gray ⟨128, 128, 128⟩ = 128 := by decide
    have h0 : bgr2gray ⟨0, 0, 0⟩ = 0 := by decide
    have h255 : bgr2gray ⟨255, 255, 255⟩ = 255 := by decide
    refine ⟨?_, ?_, ?_⟩ <;>
      unfold bright_or_dark_single_frame <;>
      rw [grayMean_replicate n hn]
    · rw [h128]; norm_num
    · rw [h0]; norm_num
    · rw [h255]; norm_num

/-- C7 witness: the theorem applied to a concrete one-pixel frame, with
the uniform mid-gray value evaluated at `n = 1`. -/
theorem C7_brightness_range_witness :
    bright_or_dark_single_frame (List.replicate 1 ⟨128, 128, 128⟩) = 128 / 255 :=
  ((C7_brightness_range [⟨0, 0, 0⟩] (by decide) (by decide)).2.2 1 (by decide)).1

/-- C6: the sampling generator fails on first pull, yielding no sample,
exactly when opening the device fails; when the open succeeds, the
sample sequence is the finite list of per-frame values and ends
normally at the first failed read, with the handle released on that
exit. -/
theorem C6_pipeline_errors (env : CamStream) :
    (env.opens = false → bright_or_dark env = Except.error "Could not open camera") ∧
    (env.opens = true →
      bright_or_dark env = Except.ok (env.frames.map bright_or_dark_step, true)) := by
  constructor <;> intro h <;> simp [bright_or_dark, h]

/-- C6 witness: the theorem applied to a device that fails to open. -/
theorem C6_pipeline_errors_witness :
    bright_or_dark ⟨false, []⟩ = Except.error "Could not open camera" :=
  (C6_pipeline_errors ⟨false, []⟩).1 rfl

/-- C10: the per-frame reduction inside the streaming generator and
`bright_or_dark_single_frame` are the same function, and the values the
generator yields are exactly `bright_or_dark_single_frame` of each
frame. -/
theorem C10_streaming_equals_single (frame : List Pix) (env : CamStream) :
    bright_or_dark_step frame = bright_or_dark_single_frame frame ∧
    (env.opens = true →
      bright_or_dark env = Except.ok (env.frames.map bright_or_dark_single_frame, true)) :=
  ⟨rfl, fun h => by simp only [bright_or_dark, h, if_true]; rfl⟩

/-- C10 witness: the generator part applied to a concrete stream. -/
theorem C10_streaming_equals_single_witness :
    bright_or_dark ⟨true, [[⟨1, 2, 3⟩]]⟩ =
      Except.ok (([[⟨1, 2, 3⟩]] : List (List Pix)).map bright_or_dark_single_frame, true) :=
  (C10_streaming_equals_single [] ⟨true, [[⟨1, 2, 3⟩]]⟩).2 rfl

/-- Helper: any first write after resuming from `last` happens at least
`interval` after `last`. -/
theorem senderRun_head_time (interval : ℚ) (samples : List (ℚ × ℚ)) :
    ∀ (last t : ℚ) (w : List ℕ),
      (senderRun interval last samples).head? = some (t, w) → interval ≤ t - last := by
  induction samples with
  | nil =>
    intro last t w h
    simp [senderRun] at h
  | cons s rest ih =>
    intro last t w h
    obtain ⟨ts, vs⟩ := s
    simp only [senderRun] at h
    by_cases hc : interval ≤ ts - last
    · rw [if_pos hc] at h
      simp only [List.head?_cons, Option.some.injEq, Prod.mk.injEq] at h
      exact h.1 ▸ hc
    · rw [if_neg hc] at h
      exact ih last t w h

/-- Helper: consecutive writes of the send loop are at least `interval`
apart in wall-clock time. -/
theorem senderRun_chain (interval : ℚ) (samples : List (ℚ × ℚ)) :
    ∀ last : ℚ,
      List.Chain' (fun a b => interval ≤ b.1 - a.1) (senderRun interval last samples) := by
  induction samples with
  | nil =>
    intro last
    simp [senderRun]
  | cons s rest ih =>
    intro last
    obtain ⟨ts, vs⟩ := s
    simp only [senderRun]
    by_cases hc : interval ≤ ts - last
    · rw [if_pos hc, List.chain'_cons']
      refine ⟨?_, ih ts⟩
      intro y hy
      obtain ⟨ty, wy⟩ := y
      exact senderRun_head_time interval rest ts ty wy (Option.mem_def.mp hy)
    · rw [if_neg hc]
      exact ih last

/-- C8: a pulled sample is written exactly when at least `interval` has
elapsed since the last send, in which case the write is the 4-byte
big-endian float encoding of the value and the last-sent time becomes
the sample's pull time; otherwise the sample is dropped without
buffering; consequently two consecutive writes are never closer
together than `interval`. -/
theorem C8_throttle (interval last t v : ℚ) (rest : List (ℚ × ℚ)) :
    (interval ≤ t - last →
      senderRun interval last ((t, v) :: rest) =
        (t, f32bytes v) :: senderRun interval t rest ∧
      (f32bytes v).length = 4) ∧
    (t - last < interval →
      senderRun interval last ((t, v) :: rest) = senderRun interval last rest) ∧
    List.Chain' (fun a b => interval ≤ b.1 - a.1)
      (senderRun interval last ((t, v) :: rest)) := by
  refine ⟨fun h => ⟨?_, rfl⟩, fun h => ?_, senderRun_chain interval _ last⟩
  · simp only [senderRun, if_pos h]
  · simp only [senderRun, if_neg (not_le.2 h)]

/-- C8 witness: interval 1, last sent at time 0, a sample pulled at
time 2 is written with its 4-byte payload. -/
theorem C8_throttle_witness :
    senderRun 1 0 [((2 : ℚ), (1 : ℚ) / 2)] = [((2 : ℚ), f32bytes (1 / 2))] ∧
    (f32bytes ((1 : ℚ) / 2)).length = 4 := by
  have h := (C8_throttle 1 0 2 (1 / 2) []).1 (by norm_num)
  exact ⟨h.1.trans rfl, h.2⟩

/-- Helper: the word encoding of a nonpositive value is 0. -/
theorem f32word_nonpos (v : ℚ) (h : v ≤ 0) : f32word v = 0 := by
  simp only [f32word]
  rw [if_pos h]

/-- Helper: branch equation of the encoder for a positive value whose
exponent is in the normal range and whose rounded mantissa does not
overflow. -/
theorem f32word_normal (v : ℚ) (h : ¬ v ≤ 0) (hE : ¬ floorLog2 v < -126)
    (hm : ¬ 2 ^ 24 ≤ rne (v * (2 : ℚ) ^ (23 - floorLog2 v))) :
    f32word v = (floorLog2 v + 127).toNat * 2 ^ 23 +
      ((rne (v * (2 : ℚ) ^ (23 - floorLog2 v))).toNat - 2 ^ 23) := by
  simp only [f32word]
  rw [if_neg h, if_neg hE, if_neg hm]

set_option maxHeartbeats 3200000 in
/-- C9: decoding the 4-byte big-endian binary32 payload the sender
produces for `v` yields `v` back exactly, for each of the five values
0, 1/4, 1/2, 3/4 and 1 (all exactly representable in single
precision). -/
theorem C9_wire_roundtrip :
    f32decode (f32bytes 0) = 0 ∧
    f32decode (f32bytes (1 / 4)) = 1 / 4 ∧
    f32decode (f32bytes (1 / 2)) = 1 / 2 ∧
    f32decode (f32bytes (3 / 4)) = 3 / 4 ∧
    f32decode (f32bytes 1) = 1 := by
  have hz : f32decode (f32bytes 0) = 0 := by
    have hw : f32word 0 = 0 := f32word_nonpos 0 le_rfl
    have hb : f32bytes 0 = [0, 0, 0, 0] := by
      simp only [f32bytes, hw]
      decide
    rw [hb]
    norm_num [f32decode]
  have h14 : f32decode (f32bytes (1 / 4)) = 1 / 4 := by
    have he : floorLog2 ((1 : ℚ) / 4) = -2 := by norm_num [floorLog2, down2]
    have hw : f32word ((1 : ℚ) / 4) = 1048576000 := by
      rw [f32word_normal]
      · rw [he]
        norm_num [rne]
        decide
      · norm_num
      · rw [he]
        norm_num
      · rw [he]
        norm_num [rne]
    have hb : f32bytes ((1 : ℚ) / 4) = [62, 128, 0, 0] := by
      simp only [f32bytes, hw]
      decide
    rw [hb]
    norm_num [f32decode]
  have h12 : f32decode (f32bytes (1 / 2)) = 1 / 2 := by
    have he : floorLog2 ((1 : ℚ) / 2) = -1 := by norm_num [floorLog2, down2]
    have hw : f32word ((1 : ℚ) / 2) = 1056964608 := by
      rw [f32word_normal]
      · rw [he]
        norm_num [rne]
        decide
      · norm_num
      · rw [he]
        norm_num
      · rw [he]
        norm_num [rne]
    have hb : f32bytes ((1 : ℚ) / 2) = [63, 0, 0, 0] := by
      simp only [f32bytes, hw]
      decide
    rw [hb]
    norm_num [f32decode]
  have h34 : f32decode (f32bytes (3 / 4)) = 3 / 4 := by
    have he : floorLog2 ((3 : ℚ) / 4) = -1 := by norm_num [floorLog2, down2]
    have hw : f32word ((3 : ℚ) / 4) = 1061158912 := by
      rw [f32word_normal]
      · rw [he]
        norm_num [rne]
        decide
      · norm_num
      · rw [he]
        norm_num
      · rw [he]
        norm_num [rne]
    have hb : f32bytes ((3 : ℚ) / 4) = [63, 64, 0, 0] := by
      simp only [f32bytes, hw]
      decide
    rw [hb]
    norm_num [f32decode]
  have h1 : f32decode (f32bytes 1) = 1 := by
    have he : floorLog2 (1 : ℚ) = 0 := by norm_num [floorLog2, low2]
    have hw : f32word (1 : ℚ) = 1065353216 := by
      rw [f32word_normal]
      · rw [he]
        norm_num [rne]
        decide
      · norm_num
      · rw [he]
        norm_num
      · rw [he]
        norm_num [rne]
    have hb : f32bytes (1 : ℚ) = [63, 128, 0, 0] := by
      simp only [f32bytes, hw]
      decide
    rw [hb]
    norm_num [f32decode]
  exact ⟨hz, h14, h12, h34, h1⟩
